import Mathlib

/-!
Verification of the ray-playground streaming engine.

This file shallowly embeds the two Rust servers of the repository —
`src/grpc-stream/rust-server/src/main.rs` (pending-ack table, retry
handler, ack handler, shutdown task) and
`src/grpc-stream-cancel/rust-server/src/main.rs` (message generator,
cancellation context, message receiver, shutdown task) — and proves or
refutes the specification's claims about them.

Timestamps and message ids are `u64` in the source; they are modelled as
`Nat`, with the one subtraction whose underflow matters (`current_time -
msg.sent_at` in the retry scan) additionally given a checked model.
The `HashMap` pending table is modelled as an association list whose
list order stands for the map's (unspecified) iteration order.
-/

namespace GrpcStream

/-- `DataMessage` of the `streaming` proto as used by
`src/grpc-stream/rust-server`: id, creation timestamp, payload,
needs_ack flag. -/
structure DataMessage where
  id : Nat
  timestamp : Nat
  payload : String
  needs_ack : Bool
deriving DecidableEq

/-- `PendingMessage` (main.rs lines 18-23): the tracked copy of a sent
message together with the time of the most recent transmission attempt
and the number of retransmissions so far. -/
structure PendingMessage where
  message : DataMessage
  sent_at : Nat
  retry_count : Nat
deriving DecidableEq

/-- The pending-ack table: `HashMap<u64, PendingMessage>` modelled as an
association list; the list order models the map's iteration order. -/
abbrev Table := List (Nat × PendingMessage)

/-- Insertion performed by the send loop (main.rs lines 55-71): a fresh
`PendingMessage` with `retry_count = 0` and `sent_at = now` for the
message with the given id, payload `"Message {id}"`, `needs_ack = true`. -/
def insertPending (id now : Nat) (t : Table) : Table :=
  (id, ⟨⟨id, now, "Message " ++ toString id, true⟩, now, 0⟩) :: t

/-- The due check of the retry scan (main.rs line 108):
`current_time - msg.sent_at > 2 && msg.retry_count < 3`, with the `u64`
subtraction read as exact subtraction (valid when `sent_at ≤ now`; the
checked model below accounts for underflow). -/
def isDue (now : Nat) (msg : PendingMessage) : Bool :=
  decide (now - msg.sent_at > 2) && decide (msg.retry_count < 3)

/-- The scan of the retry handler's tick (main.rs lines 107-115): walks
the table in iteration order; every due record gets `retry_count`
incremented and `sent_at` reset to `now` and its `(id, message)` pushed
onto the batch `to_retry`; other records are left untouched.  Returns
the updated table and the batch, both in iteration order. -/
def scanDue (now : Nat) : Table → Table × List (Nat × DataMessage)
  | [] => ([], [])
  | (id, msg) :: rest =>
    let r := scanDue now rest
    if isDue now msg then
      ((id, { msg with retry_count := msg.retry_count + 1, sent_at := now }) :: r.1,
        (id, msg.message) :: r.2)
    else
      ((id, msg) :: r.1, r.2)

/-- The settled check of the retry handler (main.rs line 118):
`pending.iter().all(|(_, msg)| msg.retry_count >= 3) || pending.is_empty()`. -/
def allCompleted (t : Table) : Bool :=
  t.all (fun e => decide (e.2.retry_count ≥ 3)) || t.isEmpty

/-- Removal performed by the ack handler (main.rs lines 146-150):
`pending.remove(&ack.ack_id)` — drop the entry keyed by `id`, if any. -/
def removeAck (id : Nat) (t : Table) : Table :=
  t.filter (fun e => e.1 ≠ id)

/-- Re-enqueueing of a retry batch onto the outbound queue (main.rs
lines 122-132): the batch elements are sent in batch order, so they are
appended, in order, to the queue's content. -/
def retryEnqueue (q : List DataMessage) (batch : List (Nat × DataMessage)) :
    List DataMessage :=
  q ++ batch.map Prod.snd

/-- Checked model of the `u64` subtraction `current_time - msg.sent_at`
(main.rs line 108): `none` models the underflow case (a panic in debug
builds, a wrap-around in release builds). -/
def checkedSub (a b : Nat) : Option Nat :=
  if b ≤ a then some (a - b) else none

/-- The retry scan with the subtraction modelled as checked: the scan
evaluates `current_time - msg.sent_at` for every record, so the whole
scan aborts (`none`) as soon as one record's `sent_at` exceeds `now`. -/
def scanDueChecked (now : Nat) : Table → Option (Table × List (Nat × DataMessage))
  | [] => some ([], [])
  | (id, msg) :: rest => do
    let d ← checkedSub now msg.sent_at
    let r ← scanDueChecked now rest
    if d > 2 ∧ msg.retry_count < 3 then
      pure ((id, { msg with retry_count := msg.retry_count + 1, sent_at := now }) :: r.1,
        (id, msg.message) :: r.2)
    else
      pure ((id, msg) :: r.1, r.2)

/-- States of the pending-ack table reachable by the three actors of the
session: the send loop's inserts, the retry handler's scans, and the ack
handler's removals, starting from the empty table. -/
inductive Reachable : Table → Prop
  | init : Reachable []
  | insert (id now : Nat) {t : Table} : Reachable t → Reachable (insertPending id now t)
  | scan (now : Nat) {t : Table} : Reachable t → Reachable (scanDue now t).1
  | remove (id : Nat) {t : Table} : Reachable t → Reachable (removeAck id t)

/-- The shutdown steps of the orchestrator tasks (both servers). -/
inductive ShutdownStep where
  | awaitSender
  | awaitRetry
  | awaitReceiver
  | awaitMonitor
  | closeQueue
  | declareClosed
deriving DecidableEq

/-- Program order of the cleanup task of `grpc-stream` (main.rs lines
161-176): await `message_sender`, await `retry_handler`, `drop(tx)`
(closing the outbound queue), await `ack_handler`, then report the
stream closed. -/
def shutdownOrder : List ShutdownStep :=
  [.awaitSender, .awaitRetry, .closeQueue, .awaitReceiver, .declareClosed]

/-- `stepBefore l a b`: step `a` occurs before step `b` in the shutdown
sequence `l`. -/
def stepBefore (l : List ShutdownStep) (a b : ShutdownStep) : Prop :=
  l.indexOf a < l.indexOf b

instance (l : List ShutdownStep) (a b : ShutdownStep) :
    Decidable (stepBefore l a b) := by
  unfold stepBefore; infer_instance

end GrpcStream

namespace GrpcStreamCancel

/-- `DataMessage` of the proto as used by
`src/grpc-stream-cancel/rust-server`: id, creation timestamp, payload
(no ack flag in this variant). -/
structure CDataMessage where
  id : Nat
  timestamp : Nat
  payload : String
deriving DecidableEq

/-- State of `MessageGenerator` (main.rs lines 20-24): the id counter
guarded by the mutex, and the configured maximum message count. -/
structure GenState where
  next_id : Nat
  max_messages : Nat
deriving DecidableEq

/-- `MessageGenerator::new` (main.rs lines 27-32): counter starts at 1. -/
def GenState.new (max_messages : Nat) : GenState :=
  ⟨1, max_messages⟩

/-- The payload string built by `generate_next` (main.rs line 48). -/
def genPayload (id maxm : Nat) : String :=
  "Message " ++ toString id ++ " from server (max: " ++ toString maxm ++ ")"

/-- `MessageGenerator::generate_next` (main.rs lines 34-53): returns
`none` once the counter exceeds `max_messages` (leaving the state
untouched), otherwise a message with the counter as id and the clock
reading `ts` as timestamp, and increments the counter. -/
def generateNext (ts : Nat) (s : GenState) : Option CDataMessage × GenState :=
  if s.next_id > s.max_messages then
    (none, s)
  else
    (some ⟨s.next_id, ts, genPayload s.next_id s.max_messages⟩,
      { s with next_id := s.next_id + 1 })

/-- `MessageGenerator::get_progress` (main.rs lines 55-59):
`((next_id - 1).min(max_messages), max_messages)` with `u64`
subtraction (exact here: the counter starts at 1 and only increments). -/
def getProgress (s : GenState) : Nat × Nat :=
  (min (s.next_id - 1) s.max_messages, s.max_messages)

/-- The generator state after `k` calls to `generate_next` from a fresh
generator with maximum `maxm` (timestamps do not affect the state). -/
def genStateAfter (maxm : Nat) : Nat → GenState
  | 0 => GenState.new maxm
  | k + 1 => (generateNext 0 (genStateAfter maxm k)).2

/-- State of `GrpcContext` (main.rs lines 63-67): the cancellation
token's flag and the recorded reason. -/
structure CtxState where
  cancelled : Bool
  reason : Option String
deriving DecidableEq

/-- `GrpcContext::new` (main.rs lines 70-75). -/
def CtxState.new : CtxState :=
  ⟨false, none⟩

/-- `GrpcContext::cancel` (main.rs lines 83-89): unconditionally stores
`Some(reason)` under the lock, then cancels the token. -/
def cancel (_s : CtxState) (reason : String) : CtxState :=
  { cancelled := true, reason := some reason }

/-- `GrpcContext::get_cancellation_reason` (main.rs lines 91-93). -/
def getCancellationReason (s : CtxState) : Option String :=
  s.reason

/-- A sequence of `cancel` calls applied in lock order. -/
def cancelSeq (s : CtxState) (reasons : List String) : CtxState :=
  reasons.foldl cancel s

/-- Coarse gRPC status codes distinguished by the receive loop
(main.rs lines 226-243). -/
inductive GrpcCode where
  | cancelledCode
  | unavailable
  | deadlineExceeded
  | other (code : String)
deriving DecidableEq

/-- The reason string chosen by the receive loop for a peer-reported
error status (main.rs lines 226-243). -/
def classify : GrpcCode → String
  | .cancelledCode => "gRPC standard cancellation - client called cancel()"
  | .unavailable => "gRPC unavailable - likely network disconnection"
  | .deadlineExceeded => "gRPC deadline exceeded - timeout"
  | .other code => "gRPC error: " ++ code

/-- One item of the inbound peer stream: a data message or an error
status; the end of the list models the peer half-close (end of stream
with no error). -/
inductive InEvent where
  | data (payload : String)
  | err (code : GrpcCode)
deriving DecidableEq

/-- Discriminator for inbound events: `true` exactly on error statuses. -/
def isErrEvent : InEvent → Bool
  | .err _ => true
  | .data _ => false

/-- `message_receiver` (main.rs lines 211-259): data items are only
logged; the first error status is classified, `cancel` is invoked with
the classified reason, and the loop breaks; when the stream ends with
no error (half-close) the loop exits without touching the context. -/
def messageReceiver (ctx : CtxState) : List InEvent → CtxState
  | [] => ctx
  | .data _ :: rest => messageReceiver ctx rest
  | .err code :: _ => cancel ctx (classify code)

/-- Program order of the cleanup task of `grpc-stream-cancel` (main.rs
lines 295-302): `tokio::join!` awaits the sender, the receiver and the
cancellation monitor — all three terminate before the join returns —
then `drop(tx)` closes the outbound queue, then the stream is reported
closed. -/
def shutdownOrderCancel : List GrpcStream.ShutdownStep :=
  [.awaitSender, .awaitReceiver, .awaitMonitor, .closeQueue, .declareClosed]

end GrpcStreamCancel

open GrpcStream GrpcStreamCancel

theorem isDue_retry_lt {now : Nat} {msg : PendingMessage}
    (h : isDue now msg = true) : msg.retry_count < 3 := by
  simp only [isDue, Bool.and_eq_true, decide_eq_true_eq] at h
  exact h.2

theorem scanDue_snd_eq (now : Nat) (t : Table) :
    (scanDue now t).2
      = (t.filter (fun e => isDue now e.2)).map (fun e => (e.1, e.2.message)) := by
  induction t with
  | nil => rfl
  | cons e rest ih =>
    obtain ⟨id, msg⟩ := e
    by_cases h : isDue now msg = true
    · simp [scanDue, h, ih]
    · simp [scanDue, h, ih]

theorem scanDue_fst_map_fst (now : Nat) (t : Table) :
    (scanDue now t).1.map Prod.fst = t.map Prod.fst := by
  induction t with
  | nil => rfl
  | cons e rest ih =>
    obtain ⟨id, msg⟩ := e
    by_cases h : isDue now msg = true
    · simp [scanDue, h, ih]
    · simp [scanDue, h, ih]

theorem scanDue_preserves_bound {now : Nat} {t : Table}
    (h : ∀ e ∈ t, e.2.retry_count ≤ 3) :
    ∀ e ∈ (scanDue now t).1, e.2.retry_count ≤ 3 := by
  induction t with
  | nil => simp [scanDue]
  | cons e rest ih =>
    obtain ⟨id, msg⟩ := e
    have hmsg : msg.retry_count ≤ 3 := h (id, msg) (List.mem_cons_self _ _)
    have hrest : ∀ e ∈ rest, e.2.retry_count ≤ 3 :=
      fun e he => h e (List.mem_cons_of_mem _ he)
    by_cases hdue : isDue now msg = true
    · intro e he
      simp only [scanDue, hdue, if_true] at he
      rcases List.mem_cons.mp he with h1 | h2
      · subst h1
        exact Nat.succ_le_of_lt (isDue_retry_lt hdue)
      · exact ih hrest e h2
    · intro e he
      simp only [scanDue, hdue, if_false, Bool.false_eq_true] at he
      rcases List.mem_cons.mp he with h1 | h2
      · subst h1; exact hmsg
      · exact ih hrest e h2

/-- Claim C1 (counterexample): the retry batch follows the pending
table's iteration order, not ascending message-id order — on a table
whose iteration order lists id 2 before id 1, with both records due,
the re-enqueued batch carries ids `[2, 1]`, which is not ascending. -/
theorem retry_order_counterexample :
    ((scanDue 3 [(2, ⟨⟨2, 0, "Message 2", true⟩, 0, 0⟩),
        (1, ⟨⟨1, 0, "Message 1", true⟩, 0, 0⟩)]).2.map Prod.fst = [2, 1])
    ∧ ¬ List.Sorted (· < ·)
        ((scanDue 3 [(2, ⟨⟨2, 0, "Message 2", true⟩, 0, 0⟩),
          (1, ⟨⟨1, 0, "Message 1", true⟩, 0, 0⟩)]).2.map Prod.fst) := by
  constructor
  · rfl
  · decide

/-- Claim C1 (amended): on every tick of the retry scheduler, the batch
selected for retransmission is exactly the due records (those with
`now - last_sent_at > retry_timeout` and `retry_count < retry_ceiling`)
in the pending table's iteration order — not necessarily ascending id
order — and it is re-enqueued onto the outbound queue in that order. -/
theorem retry_batch_in_table_order (now : Nat) (t : Table) (q : List DataMessage) :
    (scanDue now t).2
      = (t.filter (fun e => isDue now e.2)).map (fun e => (e.1, e.2.message))
    ∧ retryEnqueue q (scanDue now t).2
      = q ++ (t.filter (fun e => isDue now e.2)).map (fun e => e.2.message) := by
  refine ⟨scanDue_snd_eq now t, ?_⟩
  simp [retryEnqueue, scanDue_snd_eq now t]

/-- Claim C5: the settled check used as the retry handler's termination
condition returns `true` iff the pending table is empty or every
remaining record has `retry_count ≥ 3` (the configured ceiling). -/
theorem allCompleted_iff (t : Table) :
    allCompleted t = true ↔ t = [] ∨ ∀ e ∈ t, 3 ≤ e.2.retry_count := by
  simp [allCompleted, List.isEmpty_iff, or_comm]

theorem reachable_retry_le {t : Table} (hr : Reachable t) :
    ∀ e ∈ t, e.2.retry_count ≤ 3 := by
  induction hr with
  | init => simp
  | insert id now _ ih =>
    intro e he
    rcases List.mem_cons.mp he with h1 | h2
    · subst h1; simp
    · exact ih e h2
  | scan now _ ih => exact scanDue_preserves_bound ih
  | remove id _ ih =>
    intro e he
    exact ih e (List.mem_of_mem_filter he)

/-- Claim C4: on every reachable state of the pending-ack table,
`retry_count` never exceeds the ceiling 3; every element of a retry
batch comes from a record strictly below the ceiling (records at the
ceiling are excluded from retransmission); and a scan never removes a
record — the table keeps exactly the same ids, so a ceiling-exhausted
record stays until an acknowledgment removes it. -/
theorem retry_count_never_exceeds_ceiling {t : Table} (hr : Reachable t) :
    (∀ e ∈ t, e.2.retry_count ≤ 3)
    ∧ (∀ now p, p ∈ (scanDue now t).2 →
        ∃ e, e ∈ t ∧ p = (e.1, e.2.message) ∧ e.2.retry_count < 3)
    ∧ (∀ now, (scanDue now t).1.map Prod.fst = t.map Prod.fst) := by
  refine ⟨reachable_retry_le hr, ?_, fun now => scanDue_fst_map_fst now t⟩
  intro now p hp
  rw [scanDue_snd_eq] at hp
  obtain ⟨e, he, rfl⟩ := List.mem_map.mp hp
  have hm := List.mem_filter.mp he
  exact ⟨e, hm.1, rfl, isDue_retry_lt hm.2⟩

/-- Witness for C4 at the table holding the single freshly inserted
message 1: a scan at time 5 preserves the table's ids. -/
theorem retry_count_never_exceeds_ceiling_witness :
    (scanDue 5 (insertPending 1 0 [])).1.map Prod.fst
      = (insertPending 1 0 ([] : Table)).map Prod.fst :=
  (retry_count_never_exceeds_ceiling (Reachable.insert 1 0 Reachable.init)).2.2 5

theorem removeAck_not_mem {k : Nat} {t : Table} (h : ∀ e ∈ t, e.1 ≠ k) :
    removeAck k t = t :=
  List.filter_eq_self.mpr (fun e he => by simpa using h e he)

theorem removeAck_idem (k : Nat) (t : Table) :
    removeAck k (removeAck k t) = removeAck k t :=
  List.filter_eq_self.mpr (fun _ he => (List.mem_filter.mp he).2)

theorem mem_removeAck (k : Nat) (t : Table) (e : Nat × PendingMessage) :
    e ∈ removeAck k t ↔ e ∈ t ∧ e.1 ≠ k := by
  simp [removeAck]

theorem removeAck_length {k : Nat} {t : Table}
    (hnd : (t.map Prod.fst).Nodup) :
    t.length ≤ (removeAck k t).length + 1 := by
  induction t with
  | nil => simp [removeAck]
  | cons e rest ih =>
    simp only [List.map_cons, List.nodup_cons] at hnd
    by_cases hk : e.1 = k
    · have hall : ∀ e' ∈ rest, e'.1 ≠ k := by
        intro e' he' heq
        exact hnd.1 (hk ▸ heq ▸ List.mem_map_of_mem Prod.fst he')
      have : removeAck k (e :: rest) = rest := by
        simp only [removeAck, List.filter_cons]
        rw [if_neg (by simp [hk])]
        exact removeAck_not_mem hall
      rw [this]
      simp
    · have : removeAck k (e :: rest) = e :: removeAck k rest := by
        simp only [removeAck, List.filter_cons]
        rw [if_pos (by simp [hk])]
      rw [this]
      simpa using ih hnd.2

/-- Claim C8: processing an acknowledgment for id `k` removes at most
one record from a pending table with distinct keys; an ack for an
absent id leaves the table unchanged; repeated acks for the same id are
no-ops after the first; and exactly the entries not keyed by `k`
survive. -/
theorem ack_removes_at_most_one (k : Nat) (t : Table)
    (hnd : (t.map Prod.fst).Nodup) :
    t.length ≤ (removeAck k t).length + 1
    ∧ ((∀ e ∈ t, e.1 ≠ k) → removeAck k t = t)
    ∧ removeAck k (removeAck k t) = removeAck k t
    ∧ (∀ e, e ∈ removeAck k t ↔ e ∈ t ∧ e.1 ≠ k) :=
  ⟨removeAck_length hnd, fun h => removeAck_not_mem h,
    removeAck_idem k t, mem_removeAck k t⟩

/-- Witness for C8 on the two-record table with ids 2 and 1: an ack for
id 2 removes at most one record and acking id 2 again changes nothing. -/
theorem ack_removes_at_most_one_witness :
    (insertPending 2 0 (insertPending 1 0 [])).length
      ≤ (removeAck 2 (insertPending 2 0 (insertPending 1 0 []))).length + 1
    ∧ removeAck 2 (removeAck 2 (insertPending 2 0 (insertPending 1 0 [])))
      = removeAck 2 (insertPending 2 0 (insertPending 1 0 [])) :=
  ⟨(ack_removes_at_most_one 2 _ (by decide)).1,
    (ack_removes_at_most_one 2 _ (by decide)).2.2.1⟩

/-- Claim C10: the due check subtracts `msg.sent_at` from the current
clock reading with `u64` subtraction; when the clock reading bounds
every record's `sent_at` from above, no subtraction underflows and the
checked scan totally succeeds, agreeing with the unchecked scan — and
when a record's `sent_at` exceeds the clock reading (the system clock
is not monotonic) the checked scan aborts. -/
theorem scan_total_of_clock_bound :
    (∀ now (t : Table), (∀ e ∈ t, e.2.sent_at ≤ now) →
        scanDueChecked now t = some (scanDue now t))
    ∧ scanDueChecked 0 [(1, ⟨⟨1, 0, "Message 1", true⟩, 5, 0⟩)] = none := by
  constructor
  · intro now t h
    induction t with
    | nil => rfl
    | cons e rest ih =>
      obtain ⟨id, msg⟩ := e
      have hle : msg.sent_at ≤ now := h (id, msg) (List.mem_cons_self _ _)
      have hrest := ih (fun x hx => h x (List.mem_cons_of_mem _ hx))
      by_cases hdue : isDue now msg = true
      · have hp : now - msg.sent_at > 2 ∧ msg.retry_count < 3 := by
          simpa [isDue] using hdue
        simp [scanDueChecked, checkedSub, hle, hrest, scanDue, hdue, hp]
      · have hp : ¬ (now - msg.sent_at > 2 ∧ msg.retry_count < 3) := by
          simpa [isDue] using hdue
        simp [scanDueChecked, checkedSub, hle, hrest, scanDue, hdue, hp]
  · rfl

/-- Witness for C10 at a singleton table whose record was sent at time
1 and scanned at time 5: the checked scan succeeds. -/
theorem scan_total_of_clock_bound_witness :
    scanDueChecked 5 [(1, ⟨⟨1, 0, "Message 1", true⟩, 1, 0⟩)]
      = some (scanDue 5 [(1, ⟨⟨1, 0, "Message 1", true⟩, 1, 0⟩)]) :=
  scan_total_of_clock_bound.1 5 _ (by decide)

theorem genStateAfter_spec (maxm k : Nat) :
    (genStateAfter maxm k).next_id = min k maxm + 1
    ∧ (genStateAfter maxm k).max_messages = maxm := by
  induction k with
  | zero =>
    constructor
    · simp [genStateAfter, GenState.new]
    · rfl
  | succ k ih =>
    obtain ⟨h1, h2⟩ := ih
    by_cases h : maxm ≤ k
    · have hc : (genStateAfter maxm k).next_id > (genStateAfter maxm k).max_messages := by
        rw [h1, h2]; omega
      constructor
      · simp only [genStateAfter, generateNext, if_pos hc]
        rw [h1]; omega
      · simp only [genStateAfter, generateNext, if_pos hc]
        exact h2
    · have hc : ¬ ((genStateAfter maxm k).next_id > (genStateAfter maxm k).max_messages) := by
        rw [h1, h2]; omega
      constructor
      · simp only [genStateAfter, generateNext, if_neg hc]
        rw [h1]; omega
      · simp only [genStateAfter, generateNext, if_neg hc]
        exact h2

/-- Claim C6: on a fresh generator with maximum `maxm`, the call after
`k` earlier calls returns the message with id `k + 1` (ids 1, 2, ...,
maxm in order, timestamped with the clock reading) as long as
`k < maxm`; from the `maxm`-th call on, every call reports exhaustion
(`none`) and leaves the counter untouched, so exhaustion is permanent. -/
theorem generator_sequence (maxm k ts : Nat) :
    (k < maxm →
      (generateNext ts (genStateAfter maxm k)).1
        = some ⟨k + 1, ts, genPayload (k + 1) maxm⟩)
    ∧ (maxm ≤ k →
      (generateNext ts (genStateAfter maxm k)).1 = none
      ∧ (generateNext ts (genStateAfter maxm k)).2 = genStateAfter maxm k) := by
  obtain ⟨h1, h2⟩ := genStateAfter_spec maxm k
  constructor
  · intro hk
    have hc : ¬ ((genStateAfter maxm k).next_id > (genStateAfter maxm k).max_messages) := by
      rw [h1, h2]; omega
    have hid : (genStateAfter maxm k).next_id = k + 1 := by rw [h1]; omega
    simp only [generateNext, hid, h2]
    rw [if_neg (show ¬ maxm < k + 1 by omega)]
  · intro hk
    have hc : (genStateAfter maxm k).next_id > (genStateAfter maxm k).max_messages := by
      rw [h1, h2]; omega
    exact ⟨by simp [generateNext, hc], by simp [generateNext, hc]⟩

/-- Witness for C6 with maximum 2: the second call yields id 2, and a
call after five earlier calls reports exhaustion. -/
theorem generator_sequence_witness :
    (generateNext 7 (genStateAfter 2 1)).1 = some ⟨2, 7, genPayload 2 2⟩
    ∧ (generateNext 7 (genStateAfter 2 5)).1 = none :=
  ⟨(generator_sequence 2 1 7).1 (by decide),
    ((generator_sequence 2 5 7).2 (by decide)).1⟩

/-- Claim C9: on every reachable generator state, `get_progress`
returns `(emitted, total)` with `0 ≤ emitted ≤ total`, and once the
generator is exhausted (a call returns `none`) `emitted = total`. -/
theorem progress_bounds (maxm k ts : Nat) :
    0 ≤ (getProgress (genStateAfter maxm k)).1
    ∧ (getProgress (genStateAfter maxm k)).1 ≤ (getProgress (genStateAfter maxm k)).2
    ∧ ((generateNext ts (genStateAfter maxm k)).1 = none →
        (getProgress (genStateAfter maxm k)).1 = (getProgress (genStateAfter maxm k)).2) := by
  obtain ⟨h1, h2⟩ := genStateAfter_spec maxm k
  refine ⟨Nat.zero_le _, ?_, ?_⟩
  · simp only [getProgress]
    exact min_le_right _ _
  · intro hnone
    by_cases hc : (genStateAfter maxm k).next_id > (genStateAfter maxm k).max_messages
    · rw [h1, h2] at hc
      simp only [getProgress, h1, h2]
      omega
    · simp [generateNext, hc] at hnone

/-- Witness for C9 on the exhausted generator with maximum 3 after five
calls: emitted equals total. -/
theorem progress_bounds_witness :
    (getProgress (genStateAfter 3 5)).1 = (getProgress (genStateAfter 3 5)).2 :=
  (progress_bounds 3 5 0).2.2 (by decide)

/-- Claim C2 (counterexample): the recorded cancellation reason is
overwritten by every cancel call — after cancel "A" then cancel "B" on
a fresh context, the reason reads "B", not the first call's "A" as the
claim states. -/
theorem cancel_first_wins_counterexample :
    getCancellationReason (cancel (cancel CtxState.new "A") "B") = some "B"
    ∧ getCancellationReason (cancel (cancel CtxState.new "A") "B") ≠ some "A" := by
  exact ⟨rfl, by decide⟩

/-- Claim C2 (amended): every cancel call stores its own reason,
overwriting any earlier one (last writer wins), and flips the trigger,
so after any sequence of cancel calls the recorded reason is the one
passed to the most recent call. -/
theorem cancel_last_writer_wins (s : CtxState) (rs : List String) (r : String) :
    getCancellationReason (cancelSeq s (rs ++ [r])) = some r
    ∧ (cancelSeq s (rs ++ [r])).cancelled = true := by
  constructor <;>
    simp [cancelSeq, List.foldl_append, getCancellationReason, cancel]

/-- Claim C7: when the inbound stream ends by half-close with no error
status, the receive loop terminates leaving the cancellation context
exactly as it was (no cancel call, so the generator keeps running);
when the stream carries a terminal error status, the loop stops there
and cancels with the classified reason. -/
theorem half_close_does_not_cancel (ctx : CtxState) (evts : List InEvent) :
    ((∀ e ∈ evts, isErrEvent e = false) → messageReceiver ctx evts = ctx)
    ∧ (∀ pre code rest, (∀ e ∈ pre, isErrEvent e = false) →
        messageReceiver ctx (pre ++ InEvent.err code :: rest)
          = cancel ctx (classify code)) := by
  constructor
  · intro h
    induction evts with
    | nil => rfl
    | cons e rest ih =>
      cases e with
      | data p => exact ih (fun x hx => h x (List.mem_cons_of_mem _ hx))
      | err c =>
        have hfalse := h (.err c) (List.mem_cons_self _ _)
        simp [isErrEvent] at hfalse
  · intro pre code rest h
    induction pre with
    | nil => rfl
    | cons e pre' ih =>
      cases e with
      | data p =>
        simpa [messageReceiver] using ih (fun x hx => h x (List.mem_cons_of_mem _ hx))
      | err c =>
        have hfalse := h (.err c) (List.mem_cons_self _ _)
        simp [isErrEvent] at hfalse

/-- Witness for C7: a data-only stream leaves a fresh context
untouched, and a stream ending in an Unavailable status cancels with
the network-disconnection reason. -/
theorem half_close_does_not_cancel_witness :
    messageReceiver CtxState.new [InEvent.data "hello"] = CtxState.new
    ∧ messageReceiver CtxState.new
        [InEvent.data "hello", InEvent.err GrpcCode.unavailable]
      = cancel CtxState.new (classify GrpcCode.unavailable) :=
  ⟨(half_close_does_not_cancel CtxState.new [InEvent.data "hello"]).1 (by decide),
    (half_close_does_not_cancel CtxState.new []).2
      [InEvent.data "hello"] GrpcCode.unavailable [] (by decide)⟩

/-- Claim C3 (counterexample): in grpc-stream the cleanup task closes
the outbound queue (`drop(tx)`) before it awaits the ack-receiving
loop, and in grpc-stream-cancel the cancellation monitor is awaited
before the queue is closed, not after — the claimed shutdown sequence
holds in neither orchestrator. -/
theorem shutdown_order_counterexample :
    ¬ stepBefore shutdownOrder .awaitReceiver .closeQueue
    ∧ ¬ stepBefore shutdownOrderCancel .closeQueue .awaitMonitor := by
  decide

/-- Claim C3 (amended): in grpc-stream the orchestrator waits for the
send loop, then the retry scheduler, only then closes the outbound
queue, then waits for the receive loop, and only then declares the
session closed — so the queue can close before the receive loop has
terminated; in grpc-stream-cancel it waits for the send loop, the
receive loop and the cancellation monitor to all terminate, only then
closes the outbound queue, and then declares the session closed. -/
theorem shutdown_order_actual :
    (stepBefore shutdownOrder .awaitSender .awaitRetry
    ∧ stepBefore shutdownOrder .awaitRetry .closeQueue
    ∧ stepBefore shutdownOrder .closeQueue .awaitReceiver
    ∧ stepBefore shutdownOrder .awaitReceiver .declareClosed)
    ∧ (stepBefore shutdownOrderCancel .awaitSender .closeQueue
    ∧ stepBefore shutdownOrderCancel .awaitReceiver .closeQueue
    ∧ stepBefore shutdownOrderCancel .awaitMonitor .closeQueue
    ∧ stepBefore shutdownOrderCancel .closeQueue .declareClosed) := by
  decide
